import Mathlib

/-!
# Verification of the libfive oracle contract (doug-moen/libfive)

Shallow embedding of `src/libfive/test/oracle.cpp` and of the oracle /
renderer contract it exercises.  Scalars are modelled as `ℚ`: the axis
oracles under verification only copy coordinates and bounds (no rounding
occurs in any operation they perform), so rational arithmetic is faithful.

The renderer (`Mesh::render`), `Tree`, `Region` and the `Oracle` /
`OracleClause` base classes are not under `src/`; where a claim depends on
them they are modelled from the spec, and each such definition says so in
its doc comment.
-/

namespace LibFive

/-- A 3-vector of rationals, standing in for `Eigen::Vector3f`. -/
structure Vec3 where
  x : ℚ
  y : ℚ
  z : ℚ
deriving DecidableEq

namespace Vec3

/-- Component access, `v(A)` in Eigen notation. -/
def nth (v : Vec3) (A : Fin 3) : ℚ :=
  if A.val = 0 then v.x else if A.val = 1 then v.y else v.z

instance : Add Vec3 := ⟨fun a b => ⟨a.x + b.x, a.y + b.y, a.z + b.z⟩⟩
instance : Sub Vec3 := ⟨fun a b => ⟨a.x - b.x, a.y - b.y, a.z - b.z⟩⟩
instance : Neg Vec3 := ⟨fun a => ⟨-a.x, -a.y, -a.z⟩⟩
instance : Zero Vec3 := ⟨⟨0, 0, 0⟩⟩
instance : SMul ℚ Vec3 := ⟨fun c a => ⟨c * a.x, c * a.y, c * a.z⟩⟩

/-- Euclidean dot product. -/
def dot (a b : Vec3) : ℚ := a.x * b.x + a.y * b.y + a.z * b.z

end Vec3

/-- `Eigen::Vector3f::Zero()` followed by `v(A) = 1`: the unit vector
along axis `A`. -/
def unitVec (A : Fin 3) : Vec3 :=
  ⟨if A.val = 0 then 1 else 0, if A.val = 1 then 1 else 0,
   if A.val = 2 then 1 else 0⟩

/-- A closed interval of values, standing in for `Interval::I`. -/
structure Interval where
  lo : ℚ
  hi : ℚ
deriving DecidableEq

/-- A feature: one locally valid gradient direction at a point, standing
in for `Kernel::Feature` (constructed from a derivative vector). -/
structure Feature where
  deriv : Vec3
deriving DecidableEq

/-- Axis-aligned 3-D bounding box, standing in for `Region<3>` with its
`lower` and `upper` corners. -/
structure Region3 where
  lower : Vec3
  upper : Vec3
deriving DecidableEq

namespace Region3

/-- Membership of a point in the (closed) box. -/
def contains (r : Region3) (p : Vec3) : Prop :=
  ∀ A : Fin 3, r.lower.nth A ≤ p.nth A ∧ p.nth A ≤ r.upper.nth A

instance (r : Region3) (p : Vec3) : Decidable (r.contains p) := by
  unfold contains; infer_instance

/-- Center of the box. -/
def center (r : Region3) : Vec3 := (1 / 2 : ℚ) • (r.lower + r.upper)

end Region3

/-!
## The Oracle interface

`Oracle` (via its `OracleStorage` base, neither under `src/`) is a
stateful evaluator: the harness binds it to a batch of sample points and,
for interval queries, to the `lower`/`upper` corners of the current
region.  The shallow embedding passes that bound state explicitly: the
batch of points is a function `ℕ → Vec3` (the `points` array), the region
corners are explicit `Vec3` arguments, and the two out-parameter
operations (`checkAmbiguous`, which receives a mask to write into, and
`evalFeatures`, which receives a vector to push onto) become functions
from the incoming buffer to the resulting buffer.
-/

/-- The five-operation oracle contract (`Oracle` / `OracleStorage<>`). -/
structure Oracle where
  evalInterval : Vec3 → Vec3 → Interval
  evalPoint : (ℕ → Vec3) → ℕ → ℚ
  checkAmbiguous : (ℕ → Vec3) → List Bool → List Bool
  evalDerivs : (ℕ → Vec3) → ℕ → Vec3
  evalFeatures : (ℕ → Vec3) → List Feature → List Feature

/-- `AxisOracle<A>` from `src/libfive/test/oracle.cpp`: the oracle that
wraps the X, Y, or Z axis.
  * `evalInterval`: `out = {lower(A), upper(A)}`;
  * `evalPoint`: `out = points(index)(A)`;
  * `checkAmbiguous`: writes nothing ("Nothing to do here");
  * `evalDerivs`: `v = Zero(); v(A) = 1`;
  * `evalFeatures`: pushes the single feature `Feature(unit A)`. -/
def AxisOracle (A : Fin 3) : Oracle where
  evalInterval lo hi := ⟨lo.nth A, hi.nth A⟩
  evalPoint pts index := (pts index).nth A
  checkAmbiguous _ out := out
  evalDerivs _ _ := unitVec A
  evalFeatures _ out := out ++ [⟨unitVec A⟩]

/-- `OracleClause`: immutable descriptor whose job is to manufacture
oracle evaluators.  The behaviour of the oracles it manufactures is the
`oracle` field; `getOracle` below models the manufacturing call itself. -/
structure OracleClause where
  oracle : Oracle

/-- A manufactured oracle evaluator: its behaviour together with the
identity of the allocation (`new` returns a distinct address per call,
modelled by a counter-issued id) and the batch it is bound to — freshly
constructed oracles are bound to no batch. -/
structure OracleInstance where
  id : ℕ
  impl : Oracle
  boundPoints : Option (ℕ → Vec3)

/-- `OracleClause::getOracle` (called `makeOracle()` in the spec): returns
`std::unique_ptr<Oracle>(new AxisOracle<A>())`.  The C++ allocation is
modelled by threading an allocation counter: each call consumes the
counter as the fresh instance's identity and returns the bumped counter,
so distinct calls yield distinct instances; the `unique_ptr` result is an
`Option`, always `some` (never null). -/
def OracleClause.getOracle (c : OracleClause) (σ : ℕ) :
    Option OracleInstance × ℕ :=
  (some ⟨σ, c.oracle, none⟩, σ + 1)

/-- `AxisOracleClause<A>` from `oracle.cpp`: the clause manufacturing
`AxisOracle<A>` evaluators. -/
def AxisOracleClause (A : Fin 3) : OracleClause := ⟨AxisOracle A⟩

/-!
## Trees

Modelled from the spec: the `Tree` class is not under `src/`.  Per spec
§3, a tree node is a tagged variant over constants, the three coordinate
variables, unary and binary operations, and oracle-nodes; the operations
appearing in `oracle.cpp`'s shapes are negation, squaring, addition,
subtraction, multiplication, `max` and `min`.  `remap` replaces every
coordinate leaf by the corresponding replacement subtree, preserving the
surrounding operator structure.
-/

/-- Expression tree for an implicit function of (x, y, z). -/
inductive Tree where
  | const : ℚ → Tree
  | X : Tree
  | Y : Tree
  | Z : Tree
  | neg : Tree → Tree
  | square : Tree → Tree
  | add : Tree → Tree → Tree
  | sub : Tree → Tree → Tree
  | mul : Tree → Tree → Tree
  | max : Tree → Tree → Tree
  | min : Tree → Tree → Tree
  | oracle : OracleClause → Tree

namespace Tree

/-- Modelled from the spec: `Tree::remap(x, y, z)` returns a new tree
with every coordinate-variable leaf replaced by the corresponding
replacement subtree; constants, operators and oracle-nodes pass through
with their structure preserved. -/
def remap : Tree → Tree → Tree → Tree → Tree
  | X, x, _, _ => x
  | Y, _, y, _ => y
  | Z, _, _, z => z
  | const c, _, _, _ => const c
  | neg t, x, y, z => neg (t.remap x y z)
  | square t, x, y, z => square (t.remap x y z)
  | add a b, x, y, z => add (a.remap x y z) (b.remap x y z)
  | sub a b, x, y, z => sub (a.remap x y z) (b.remap x y z)
  | mul a b, x, y, z => mul (a.remap x y z) (b.remap x y z)
  | max a b, x, y, z => max (a.remap x y z) (b.remap x y z)
  | min a b, x, y, z => min (a.remap x y z) (b.remap x y z)
  | oracle c, _, _, _ => oracle c

end Tree

/-- `convertToOracleAxes` from `oracle.cpp`: replaces X, Y, and Z with
oracles that pretend to be them. -/
def convertToOracleAxes (t : Tree) : Tree :=
  t.remap (Tree.oracle (AxisOracleClause 0)) (Tree.oracle (AxisOracleClause 1))
    (Tree.oracle (AxisOracleClause 2))

/-!
## The evaluator

Modelled from the spec: the `Evaluator` is not under `src/`.  Per spec
§4.4 it evaluates native operators directly — with standard
interval-arithmetic combination rules for bounds — and delegates to the
bound oracle at an oracle-node, treating the five oracle operations as
the leaf-level implementation of each evaluation mode.  The five modes of
one subtree are collected in an `EvalBundle`; a tree's bundle is computed
compositionally, so the renderer accesses the tree only through it.
-/

/-- The five evaluation modes of one subtree over a point or region. -/
structure EvalBundle where
  point : Vec3 → ℚ
  interval : Region3 → Interval
  derivs : Vec3 → Vec3
  ambiguous : Vec3 → Bool
  features : Vec3 → List Feature

namespace EvalBundle

/-- Constant node: constant value, degenerate interval, zero gradient,
never ambiguous, single zero-gradient feature. -/
def constB (c : ℚ) : EvalBundle where
  point _ := c
  interval _ := ⟨c, c⟩
  derivs _ := 0
  ambiguous _ := false
  features _ := [⟨0⟩]

/-- Coordinate node for axis `A`: the A-th coordinate as value, the A-th
region bound as interval, the unit vector along `A` as gradient, never
ambiguous, a single feature along `A`. -/
def axisB (A : Fin 3) : EvalBundle where
  point p := p.nth A
  interval r := ⟨r.lower.nth A, r.upper.nth A⟩
  derivs _ := unitVec A
  ambiguous _ := false
  features _ := [⟨unitVec A⟩]

/-- Negation: pointwise negation; the interval flips and negates. -/
def negB (e : EvalBundle) : EvalBundle where
  point p := -e.point p
  interval r := ⟨-(e.interval r).hi, -(e.interval r).lo⟩
  derivs p := -e.derivs p
  ambiguous p := e.ambiguous p
  features p := (e.features p).map (fun f => ⟨-f.deriv⟩)

/-- Squaring: the interval rule clamps at zero when the operand interval
straddles zero; the chain rule scales the gradient by `2·value`. -/
def squareB (e : EvalBundle) : EvalBundle where
  point p := e.point p * e.point p
  interval r :=
    let i := e.interval r
    let a := i.lo * i.lo
    let b := i.hi * i.hi
    if i.lo ≤ 0 ∧ 0 ≤ i.hi then ⟨0, Max.max a b⟩
    else ⟨Min.min a b, Max.max a b⟩
  derivs p := (2 * e.point p) • e.derivs p
  ambiguous p := e.ambiguous p
  features p := (e.features p).map (fun f => ⟨(2 * e.point p) • f.deriv⟩)

/-- Addition: bounds add; gradients add; features combine pairwise. -/
def addB (a b : EvalBundle) : EvalBundle where
  point p := a.point p + b.point p
  interval r := ⟨(a.interval r).lo + (b.interval r).lo,
                 (a.interval r).hi + (b.interval r).hi⟩
  derivs p := a.derivs p + b.derivs p
  ambiguous p := a.ambiguous p || b.ambiguous p
  features p :=
    (a.features p).flatMap (fun fa =>
      (b.features p).map (fun fb => ⟨fa.deriv + fb.deriv⟩))

/-- Subtraction: the lower bound subtracts the opposite upper bound. -/
def subB (a b : EvalBundle) : EvalBundle where
  point p := a.point p - b.point p
  interval r := ⟨(a.interval r).lo - (b.interval r).hi,
                 (a.interval r).hi - (b.interval r).lo⟩
  derivs p := a.derivs p - b.derivs p
  ambiguous p := a.ambiguous p || b.ambiguous p
  features p :=
    (a.features p).flatMap (fun fa =>
      (b.features p).map (fun fb => ⟨fa.deriv - fb.deriv⟩))

/-- Multiplication: the interval takes the min/max of the four corner
products; the gradient follows the product rule. -/
def mulB (a b : EvalBundle) : EvalBundle where
  point p := a.point p * b.point p
  interval r :=
    let i := a.interval r
    let j := b.interval r
    let ps := [i.lo * j.lo, i.lo * j.hi, i.hi * j.lo, i.hi * j.hi]
    ⟨ps.foldl Min.min (i.lo * j.lo), ps.foldl Max.max (i.lo * j.lo)⟩
  derivs p := b.point p • a.derivs p + a.point p • b.derivs p
  ambiguous p := a.ambiguous p || b.ambiguous p
  features p :=
    (a.features p).flatMap (fun fa =>
      (b.features p).map (fun fb =>
        ⟨b.point p • fa.deriv + a.point p • fb.deriv⟩))

/-- `max`: bounds take componentwise max; the gradient follows the larger
branch; a tie of values with differing gradients is ambiguous and
contributes the features of both branches. -/
def maxB (a b : EvalBundle) : EvalBundle where
  point p := Max.max (a.point p) (b.point p)
  interval r := ⟨Max.max (a.interval r).lo (b.interval r).lo,
                 Max.max (a.interval r).hi (b.interval r).hi⟩
  derivs p := if a.point p < b.point p then b.derivs p else a.derivs p
  ambiguous p := a.ambiguous p || b.ambiguous p ||
    (decide (a.point p = b.point p) && decide (a.derivs p ≠ b.derivs p))
  features p :=
    if a.point p = b.point p then a.features p ++ b.features p
    else if a.point p < b.point p then b.features p else a.features p

/-- `min`: dual of `max`. -/
def minB (a b : EvalBundle) : EvalBundle where
  point p := Min.min (a.point p) (b.point p)
  interval r := ⟨Min.min (a.interval r).lo (b.interval r).lo,
                 Min.min (a.interval r).hi (b.interval r).hi⟩
  derivs p := if b.point p < a.point p then b.derivs p else a.derivs p
  ambiguous p := a.ambiguous p || b.ambiguous p ||
    (decide (a.point p = b.point p) && decide (a.derivs p ≠ b.derivs p))
  features p :=
    if a.point p = b.point p then a.features p ++ b.features p
    else if b.point p < a.point p then b.features p else a.features p

/-- Oracle node: each mode delegates to the clause's oracle, bound per
spec §4.4 to the query at hand — a one-point batch for pointwise modes
(the ambiguity mask and the feature vector start out cleared, as the
calling convention pre-initializes them), the region corners for the
interval mode. -/
def oracleB (c : OracleClause) : EvalBundle where
  point p := c.oracle.evalPoint (fun _ => p) 0
  interval r := c.oracle.evalInterval r.lower r.upper
  derivs p := c.oracle.evalDerivs (fun _ => p) 0
  ambiguous p := (c.oracle.checkAmbiguous (fun _ => p) [false]).getD 0 false
  features p := c.oracle.evalFeatures (fun _ => p) []

end EvalBundle

namespace Tree

/-- The evaluator of a tree: all five modes, computed compositionally. -/
def evaluator : Tree → EvalBundle
  | const c => .constB c
  | X => .axisB 0
  | Y => .axisB 1
  | Z => .axisB 2
  | neg t => .negB t.evaluator
  | square t => .squareB t.evaluator
  | add a b => .addB a.evaluator b.evaluator
  | sub a b => .subB a.evaluator b.evaluator
  | mul a b => .mulB a.evaluator b.evaluator
  | max a b => .maxB a.evaluator b.evaluator
  | min a b => .minB a.evaluator b.evaluator
  | oracle c => .oracleB c

end Tree

/-!
## BRep and the renderer
-/

/-- `BRep<3>`: the output mesh, an ordered sequence of vertex positions
and an ordered sequence of faces ("branes"), each face a triangle of
vertex indices. -/
structure BRep where
  verts : List Vec3
  branes : List (ℕ × ℕ × ℕ)
deriving DecidableEq

/-- `BRepCompare` from `oracle.cpp`, as a single success condition: the
Catch `REQUIRE` chain succeeds exactly when every check passes — equal
vertex counts, vertices equal at every index, equal brane counts, branes
equal at every index. -/
def BRepCompare (first second : BRep) : Bool :=
  decide (first.verts.length = second.verts.length) &&
  (List.range first.verts.length).all (fun i =>
    decide (first.verts.getD i 0 = second.verts.getD i 0)) &&
  decide (first.branes.length = second.branes.length) &&
  (List.range first.branes.length).all (fun i =>
    decide (first.branes.getD i (0, 0, 0) = second.branes.getD i (0, 0, 0)))

namespace Region3

/-- The eight corners of the box, in a fixed (x fastest) order. -/
def corners (r : Region3) : List Vec3 :=
  [⟨r.lower.x, r.lower.y, r.lower.z⟩, ⟨r.upper.x, r.lower.y, r.lower.z⟩,
   ⟨r.lower.x, r.upper.y, r.lower.z⟩, ⟨r.upper.x, r.upper.y, r.lower.z⟩,
   ⟨r.lower.x, r.lower.y, r.upper.z⟩, ⟨r.upper.x, r.lower.y, r.upper.z⟩,
   ⟨r.lower.x, r.upper.y, r.upper.z⟩, ⟨r.upper.x, r.upper.y, r.upper.z⟩]

/-- Subdivision into the 2³ children sharing the parent's center
(spec §3, §4.3). -/
def octants (r : Region3) : List Region3 :=
  let c := r.center
  [⟨⟨r.lower.x, r.lower.y, r.lower.z⟩, ⟨c.x, c.y, c.z⟩⟩,
   ⟨⟨c.x, r.lower.y, r.lower.z⟩, ⟨r.upper.x, c.y, c.z⟩⟩,
   ⟨⟨r.lower.x, c.y, r.lower.z⟩, ⟨c.x, r.upper.y, c.z⟩⟩,
   ⟨⟨c.x, c.y, r.lower.z⟩, ⟨r.upper.x, r.upper.y, c.z⟩⟩,
   ⟨⟨r.lower.x, r.lower.y, c.z⟩, ⟨c.x, c.y, r.upper.z⟩⟩,
   ⟨⟨c.x, r.lower.y, c.z⟩, ⟨r.upper.x, c.y, r.upper.z⟩⟩,
   ⟨⟨r.lower.x, c.y, c.z⟩, ⟨c.x, r.upper.y, r.upper.z⟩⟩,
   ⟨⟨c.x, c.y, c.z⟩, ⟨r.upper.x, r.upper.y, r.upper.z⟩⟩]

end Region3

/-- The twelve edges of a cell, as index pairs into `Region3.corners`. -/
def cubeEdges : List (ℕ × ℕ) :=
  [(0, 1), (2, 3), (4, 5), (6, 7),
   (0, 2), (1, 3), (4, 6), (5, 7),
   (0, 4), (1, 5), (2, 6), (3, 7)]

/-- `n` bisection steps locating a sign change of `f` between `a` and
`b`, returning the midpoint of the final bracket (spec §4.5 step 3). -/
def bisect (f : Vec3 → ℚ) : ℕ → Vec3 → Vec3 → Vec3
  | 0, a, b => (1 / 2 : ℚ) • (a + b)
  | n + 1, a, b =>
    let m := (1 / 2 : ℚ) • (a + b)
    if (decide (f m < 0)) = (decide (f a < 0)) then bisect f n m b
    else bisect f n a m

/-- Mean of a list of points (the midpoint-averaging fallback placement
the spec allows in §4.5). -/
def centroid (l : List Vec3) : Vec3 :=
  (1 / (l.length : ℚ)) • (l.foldl (fun a v => a + v) 0)

/-- One Newton step of the value toward the zero level set along a given
direction, guarded against a zero direction. -/
def newtonStep (e : EvalBundle) (p g : Vec3) : Vec3 :=
  let d := g.dot g
  if d = 0 then p else p - (e.point p / d) • g

/-- Modelled from the spec (§4.5 steps 3–5): mesh one leaf cell.  Sample
the corner values, locate the zero crossing on each sign-change edge by
bisection, and place cell vertices: one per feature when the cell center
is ambiguous, else a single one along the gradient.  The cell emits a
triangle fan from each placed vertex over consecutive crossings; indices
are local to the cell. -/
def meshLeaf (e : EvalBundle) (r : Region3) :
    List Vec3 × List (ℕ × ℕ × ℕ) :=
  let cs := r.corners
  let f := e.point
  let cross := cubeEdges.filterMap (fun pr =>
    let a := cs.getD pr.1 r.center
    let b := cs.getD pr.2 r.center
    if (decide (f a < 0)) = (decide (f b < 0)) then none
    else some (bisect f 6 a b))
  if cross.length < 3 then ([], [])
  else
    let c0 := centroid cross
    let vs :=
      if e.ambiguous c0 then
        (e.features c0).map (fun ft => newtonStep e c0 ft.deriv)
      else [newtonStep e c0 (e.derivs c0)]
    let k := vs.length
    let tris := (List.range k).flatMap (fun t =>
      (List.range (cross.length - 1)).map (fun i => (t, k + i, k + i + 1)))
    (vs ++ cross, tris)

/-- Append a leaf cell's local mesh to the accumulated BRep, shifting the
local vertex indices past the vertices already emitted. -/
def BRep.append (acc : BRep) (lv : List Vec3)
    (lb : List (ℕ × ℕ × ℕ)) : BRep :=
  let n := acc.verts.length
  ⟨acc.verts ++ lv,
   acc.branes ++ lb.map (fun t => (t.1 + n, t.2.1 + n, t.2.2 + n))⟩

/-- Modelled from the spec (§4.5 steps 1–2): one cell of the adaptive
subdivision.  Compute the interval bound; if it is entirely positive or
entirely negative the cell is pruned.  Otherwise recurse into the 2³
children while subdivision depth remains, and mesh the cell directly once
it does not. -/
def renderCell (e : EvalBundle) : ℕ → Region3 → BRep → BRep
  | 0, r, acc =>
    let i := e.interval r
    if 0 < i.lo ∨ i.hi < 0 then acc
    else
      let lm := meshLeaf e r
      acc.append lm.1 lm.2
  | fuel + 1, r, acc =>
    let i := e.interval r
    if 0 < i.lo ∨ i.hi < 0 then acc
    else r.octants.foldl (fun a cr => renderCell e fuel cr a) acc

/-- The fixed subdivision-depth policy of the modelled mesher. -/
def renderDepth : ℕ := 2

namespace Mesh

/-- Modelled from the spec: `Mesh::render(t, r)` — build the adaptive
subdivision over the starting region and emit the BRep.  The tree enters
only through its evaluator bundle. -/
def render (t : Tree) (r : Region3) : BRep :=
  renderCell t.evaluator renderDepth r ⟨[], []⟩

end Mesh

/-!
## The shapes and regions of the test cases
-/

/-- Modelled from the spec: `sphere(r)` from `util/shapes.hpp` (not under
`src/`) — the sphere of radius `r` centered at the origin, written in the
sqrt-free form `x² + y² + z² − r²`, which has the same zero level set. -/
def sphere (r : ℚ) : Tree :=
  .sub (.add (.add (.square .X) (.square .Y)) (.square .Z)) (.const (r * r))

/-- The cube of `oracle.cpp`'s second test case: `max` of six half-space
planes at ±1.5 on each axis. -/
def cubeTree : Tree :=
  .max (.max
      (.max (.neg (.add .X (.const (3 / 2)))) (.sub .X (.const (3 / 2))))
      (.max (.neg (.add .Y (.const (3 / 2)))) (.sub .Y (.const (3 / 2)))))
    (.max (.neg (.add .Z (.const (3 / 2)))) (.sub .Z (.const (3 / 2))))

/-- The region `[-1, 1]³` of the sphere test case. -/
def regionA : Region3 := ⟨⟨-1, -1, -1⟩, ⟨1, 1, 1⟩⟩

/-- The region `[-2.5, 2.5]³` of the cube test case. -/
def regionB : Region3 := ⟨⟨-(5 / 2), -(5 / 2), -(5 / 2)⟩, ⟨5 / 2, 5 / 2, 5 / 2⟩⟩

/-- The region `[10, 11]³`, entirely outside the unit sphere. -/
def regionC : Region3 := ⟨⟨10, 10, 10⟩, ⟨11, 11, 11⟩⟩

/-- The native tree standing behind the coordinate function axis `A`
mimics. -/
def axisTree (A : Fin 3) : Tree :=
  if A.val = 0 then .X else if A.val = 1 then .Y else .Z

/-!
## Helper lemmas
-/

theorem Vec3.sub_def (a b : Vec3) :
    a - b = ⟨a.x - b.x, a.y - b.y, a.z - b.z⟩ := rfl

/-- The bundle of an axis-mimicking oracle node coincides with the native
axis bundle, mode by mode. -/
theorem oracleB_axisClause (A : Fin 3) :
    EvalBundle.oracleB (AxisOracleClause A) = EvalBundle.axisB A := rfl

/-- Oracle transparency at the evaluator level: substituting the three
axis-mimicking oracles for X, Y, Z leaves the whole tree's five-mode
evaluator unchanged. -/
theorem convertToOracleAxes_evaluator (t : Tree) :
    (convertToOracleAxes t).evaluator = t.evaluator := by
  unfold convertToOracleAxes
  induction t with
  | const c => rfl
  | X => exact oracleB_axisClause 0
  | Y => exact oracleB_axisClause 1
  | Z => exact oracleB_axisClause 2
  | neg t ih => simp [Tree.remap, Tree.evaluator, ih]
  | square t ih => simp [Tree.remap, Tree.evaluator, ih]
  | add a b iha ihb => simp [Tree.remap, Tree.evaluator, iha, ihb]
  | sub a b iha ihb => simp [Tree.remap, Tree.evaluator, iha, ihb]
  | mul a b iha ihb => simp [Tree.remap, Tree.evaluator, iha, ihb]
  | max a b iha ihb => simp [Tree.remap, Tree.evaluator, iha, ihb]
  | min a b iha ihb => simp [Tree.remap, Tree.evaluator, iha, ihb]
  | oracle c => rfl

/-- A cell whose interval bound is entirely positive or entirely negative
is pruned and contributes nothing beyond the accumulator. -/
theorem renderCell_prune (e : EvalBundle) (fuel : ℕ) (r : Region3)
    (acc : BRep) (h : 0 < (e.interval r).lo ∨ (e.interval r).hi < 0) :
    renderCell e fuel r acc = acc := by
  cases fuel with
  | zero => simp [renderCell, h]
  | succ n => simp [renderCell, h]

/-- The per-index `getD` comparison over equal-length lists succeeds
exactly on equal lists. -/
theorem listCompare_iff {α : Type} [DecidableEq α] (d : α) (l1 l2 : List α)
    (hlen : l1.length = l2.length) :
    ((List.range l1.length).all
      (fun i => decide (l1.getD i d = l2.getD i d)) = true) ↔ l1 = l2 := by
  constructor
  · intro h
    refine List.ext_getElem hlen (fun i h1 h2 => ?_)
    have hd := (List.all_eq_true.mp h) i (List.mem_range.mpr h1)
    rw [decide_eq_true_eq] at hd
    rwa [List.getD_eq_getElem l1 d h1, List.getD_eq_getElem l2 d h2] at hd
  · intro h
    subst h
    simp

/-!
## The claims
-/

/-- Claim C1: oracle transparency, concrete scenario A — for the sphere
of radius 0.5 centered at the origin and the region `[-1, 1]³`, rendering
the native tree and rendering the tree obtained by remap-substituting the
three trivial axis-mimicking oracles produce BReps that are exactly
equal: same vertex sequence and same face sequence, in content, count,
and order. -/
theorem sphere_oracle_render_eq :
    Mesh.render (convertToOracleAxes (sphere (1 / 2))) regionA =
      Mesh.render (sphere (1 / 2)) regionA := by
  unfold Mesh.render
  rw [convertToOracleAxes_evaluator]

/-- Claim C2: oracle transparency, concrete scenario B — for the
axis-aligned cube expressed as `max` of six half-space planes at ±1.5 on
each axis and the region `[-2.5, 2.5]³`, rendering the native tree and
rendering the tree with all three coordinate axes replaced by
axis-mimicking oracles produce exactly equal BReps, including across the
cube's sharp edges and corners where feature handling is exercised. -/
theorem cube_oracle_render_eq :
    Mesh.render (convertToOracleAxes cubeTree) regionB =
      Mesh.render cubeTree regionB := by
  unfold Mesh.render
  rw [convertToOracleAxes_evaluator]

/-- Claim C3: interval soundness of the axis-mimicking oracle — for every
region and every sample point inside it, the value returned by
`AxisOracle<A>::evalPoint` (the point's A-th coordinate) lies within the
interval `[lower(A), upper(A)]` returned by
`AxisOracle<A>::evalInterval`. -/
theorem axisOracle_interval_sound (A : Fin 3) (r : Region3)
    (pts : ℕ → Vec3) (i : ℕ) (h : r.contains (pts i)) :
    ((AxisOracle A).evalInterval r.lower r.upper).lo ≤
        (AxisOracle A).evalPoint pts i ∧
      (AxisOracle A).evalPoint pts i ≤
        ((AxisOracle A).evalInterval r.lower r.upper).hi :=
  h A

/-- Witness for C3, at the region `[-1, 1]³`, the origin, and axis 0. -/
theorem axisOracle_interval_sound_witness :
    regionA.contains ⟨0, 0, 0⟩ ∧
      (((AxisOracle 0).evalInterval regionA.lower regionA.upper).lo ≤
          (AxisOracle 0).evalPoint (fun _ => ⟨0, 0, 0⟩) 0 ∧
        (AxisOracle 0).evalPoint (fun _ => ⟨0, 0, 0⟩) 0 ≤
          ((AxisOracle 0).evalInterval regionA.lower regionA.upper).hi) := by
  have hc : regionA.contains ⟨0, 0, 0⟩ := by
    intro A
    fin_cases A <;> constructor <;> norm_num [regionA, Vec3.nth]
  exact ⟨hc, axisOracle_interval_sound 0 regionA (fun _ => ⟨0, 0, 0⟩) 0 hc⟩

/-- Claim C4: ambiguity/feature consistency for the axis-mimicking
oracle — for every bound batch and every sample in it (under the calling
convention that the ambiguity mask arrives cleared), `AxisOracle<A>`
reports the sample as not ambiguous, its feature-set operation yields
exactly one feature (the unit vector along axis `A`), and the ambiguity
check is true iff the feature set has cardinality at least 2. -/
theorem axisOracle_ambiguity_feature (A : Fin 3) (pts : ℕ → Vec3)
    (mask : List Bool) (i : ℕ) (hmask : ∀ b ∈ mask, b = false)
    (hi : i < mask.length) :
    ((AxisOracle A).checkAmbiguous pts mask).getD i false = false ∧
    (AxisOracle A).evalFeatures pts [] = [⟨unitVec A⟩] ∧
    ((((AxisOracle A).checkAmbiguous pts mask).getD i false = true) ↔
      2 ≤ ((AxisOracle A).evalFeatures pts []).length) := by
  have h0 : ((AxisOracle A).checkAmbiguous pts mask).getD i false = false := by
    have hm : mask.getD i false ∈ mask := by
      rw [List.getD_eq_getElem mask false hi]
      exact List.getElem_mem hi
    exact hmask _ hm
  refine ⟨h0, rfl, ?_⟩
  rw [h0]
  simp [AxisOracle]

/-- Witness for C4, at axis 0, a two-sample cleared mask, and index 0. -/
theorem axisOracle_ambiguity_feature_witness :
    (∀ b ∈ [false, false], b = false) ∧ (0 : ℕ) < 2 ∧
    (((AxisOracle 0).checkAmbiguous (fun _ => ⟨1, 2, 3⟩)
        [false, false]).getD 0 false = false ∧
      (AxisOracle 0).evalFeatures (fun _ => ⟨1, 2, 3⟩) [] = [⟨unitVec 0⟩] ∧
      ((((AxisOracle 0).checkAmbiguous (fun _ => ⟨1, 2, 3⟩)
          [false, false]).getD 0 false = true) ↔
        2 ≤ ((AxisOracle 0).evalFeatures (fun _ => ⟨1, 2, 3⟩) []).length)) :=
  ⟨by decide, by decide,
    axisOracle_ambiguity_feature 0 (fun _ => ⟨1, 2, 3⟩) [false, false] 0
      (by decide) (by decide)⟩

/-- Claim C5: for every sample index in the bound batch,
`AxisOracle<A>::evalPoint` returns exactly the A-th coordinate of the
sample at that index, and the value is a deterministic, pure function of
the sample's coordinates: any call over a batch and index holding the
same sample returns the same value. -/
theorem axisOracle_evalPoint_coord (A : Fin 3) (pts pts' : ℕ → Vec3)
    (i i' : ℕ) (h : pts i = pts' i') :
    (AxisOracle A).evalPoint pts i = (pts i).nth A ∧
    (AxisOracle A).evalPoint pts i = (AxisOracle A).evalPoint pts' i' :=
  ⟨rfl, by simp [AxisOracle, h]⟩

/-- Witness for C5, at axis 0 and the sample `(3, 4, 5)` bound at two
different indices. -/
theorem axisOracle_evalPoint_coord_witness :
    (AxisOracle 0).evalPoint (fun _ => ⟨3, 4, 5⟩) 0 = 3 ∧
    (AxisOracle 0).evalPoint (fun _ => ⟨3, 4, 5⟩) 0 =
      (AxisOracle 0).evalPoint (fun _ => ⟨3, 4, 5⟩) 1 :=
  ⟨(axisOracle_evalPoint_coord 0 (fun _ => ⟨3, 4, 5⟩)
      (fun _ => ⟨3, 4, 5⟩) 0 1 rfl).1,
   (axisOracle_evalPoint_coord 0 (fun _ => ⟨3, 4, 5⟩)
      (fun _ => ⟨3, 4, 5⟩) 0 1 rfl).2⟩

/-- Claim C6: for every sample index, `AxisOracle<A>::evalDerivs` writes
the unit coordinate vector along axis `A`, independent of the index and
of the bound batch; and this vector is a valid (exact) gradient of the
coordinate function the oracle mimics: the native axis value changes
between any two points by exactly the dot product of the gradient with
the displacement. -/
theorem axisOracle_evalDerivs_grad (A : Fin 3) (pts : ℕ → Vec3) (i : ℕ) :
    (AxisOracle A).evalDerivs pts i = unitVec A ∧
    ∀ p q : Vec3,
      (axisTree A).evaluator.point q - (axisTree A).evaluator.point p =
        Vec3.dot ((AxisOracle A).evalDerivs pts i) (q - p) := by
  refine ⟨rfl, fun p q => ?_⟩
  fin_cases A <;>
    simp [axisTree, Tree.evaluator, EvalBundle.axisB, AxisOracle, unitVec,
          Vec3.dot, Vec3.nth, Vec3.sub_def]

/-- Claim C7: BRep equality as tested by the harness is exact ordered
equality — `BRepCompare` succeeds iff the vertex sequences and the brane
sequences are equal as sequences (equal length, equal element at every
index, same order); no reordering, tolerance, or subset matching. -/
theorem BRepCompare_exact (first second : BRep) :
    BRepCompare first second = true ↔
      first.verts = second.verts ∧ first.branes = second.branes := by
  unfold BRepCompare
  simp only [Bool.and_eq_true, decide_eq_true_eq]
  constructor
  · rintro ⟨⟨⟨hvl, hv⟩, hbl⟩, hb⟩
    exact ⟨(listCompare_iff 0 first.verts second.verts hvl).mp hv,
           (listCompare_iff (0, 0, 0) first.branes second.branes hbl).mp hb⟩
  · rintro ⟨h1, h2⟩
    rw [h1, h2]
    refine ⟨⟨⟨rfl, ?_⟩, rfl⟩, ?_⟩ <;> simp

/-- Claim C8: `OracleClause`'s oracle-manufacturing operation
(`getOracle` in the code, `makeOracle()` in the spec), called on an axis
oracle clause, returns a freshly constructed, non-null oracle instance
bound to no batch, whose behaviour is `AxisOracle<A>`; distinct calls
(distinct allocation states) return distinct instances. -/
theorem axisClause_getOracle_fresh (A : Fin 3) (σ σ' : ℕ) (h : σ ≠ σ') :
    ((AxisOracleClause A).getOracle σ).1 = some ⟨σ, AxisOracle A, none⟩ ∧
    (((AxisOracleClause A).getOracle σ).1).isSome = true ∧
    ((AxisOracleClause A).getOracle σ).2 = σ + 1 ∧
    (∀ inst inst' : OracleInstance,
      ((AxisOracleClause A).getOracle σ).1 = some inst →
      ((AxisOracleClause A).getOracle σ').1 = some inst' →
      inst.id ≠ inst'.id) := by
  refine ⟨rfl, rfl, rfl, fun inst inst' hi hi' => ?_⟩
  have h1 : inst.id = σ := by
    cases Option.some.inj hi
    rfl
  have h2 : inst'.id = σ' := by
    cases Option.some.inj hi'
    rfl
  rw [h1, h2]
  exact h

/-- Witness for C8, at axis 0 and allocation states 0 and 1. -/
theorem axisClause_getOracle_fresh_witness :
    (0 : ℕ) ≠ 1 ∧
    (((AxisOracleClause 0).getOracle 0).1 = some ⟨0, AxisOracle 0, none⟩ ∧
     (((AxisOracleClause 0).getOracle 0).1).isSome = true ∧
     ((AxisOracleClause 0).getOracle 0).2 = 0 + 1 ∧
     (∀ inst inst' : OracleInstance,
       ((AxisOracleClause 0).getOracle 0).1 = some inst →
       ((AxisOracleClause 0).getOracle 1).1 = some inst' →
       inst.id ≠ inst'.id)) :=
  ⟨by decide, axisClause_getOracle_fresh 0 0 1 (by decide)⟩

/-- Claim C9: rendering over a region lying entirely outside a shape's
zero level set — here `[10, 11]³` for the unit sphere — succeeds and
yields the empty BRep: zero vertices and zero faces. -/
theorem render_outside_empty :
    Mesh.render (sphere 1) regionC = ⟨[], []⟩ := by
  have h : ((sphere 1).evaluator.interval regionC) = ⟨299, 362⟩ := by
    simp [sphere, Tree.evaluator, EvalBundle.subB, EvalBundle.addB,
          EvalBundle.squareB, EvalBundle.axisB, EvalBundle.constB,
          regionC, Vec3.nth]
    norm_num
  unfold Mesh.render
  exact renderCell_prune _ _ _ _ (Or.inl (by rw [h]; norm_num))

/-- Claim C10: `AxisOracle<A>::checkAmbiguous` writes nothing to its
output mask — for every bound batch the mask is returned exactly as it
was on entry — so every sample is reported non-ambiguous only under the
precondition that the caller pre-initializes the mask to all-false. -/
theorem axisOracle_checkAmbiguous_frame (A : Fin 3) (pts : ℕ → Vec3)
    (mask : List Bool) :
    (AxisOracle A).checkAmbiguous pts mask = mask ∧
    ((∀ b ∈ mask, b = false) →
      ∀ b ∈ (AxisOracle A).checkAmbiguous pts mask, b = false) :=
  ⟨rfl, fun h => h⟩

/-- Witness for C10, at axis 0 and a cleared one-sample mask. -/
theorem axisOracle_checkAmbiguous_frame_witness :
    (AxisOracle 0).checkAmbiguous (fun _ => ⟨0, 0, 0⟩) [false] = [false] ∧
    ∀ b ∈ (AxisOracle 0).checkAmbiguous (fun _ => ⟨0, 0, 0⟩) [false],
      b = false :=
  ⟨(axisOracle_checkAmbiguous_frame 0 (fun _ => ⟨0, 0, 0⟩) [false]).1,
   (axisOracle_checkAmbiguous_frame 0 (fun _ => ⟨0, 0, 0⟩) [false]).2
     (by decide)⟩

end LibFive
